import Mathlib

/-!
Verification development for the webcrawler crawler package
(webcrawler/crawler/crawler.go): a shallow embedding of URL handling,
link extraction, page download and cache, visited-set admission, the
recursive depth-bounded crawl, and the goroutine/semaphore fan-out
discipline, together with theorems about the embedded definitions.
-/

namespace WebCrawler

/-! URL model: the parts of Go's net/url used by the crawler. -/

/-- Model of a parsed URL: the fields of Go's net/url URL that the crawler
touches (Scheme, Host, Path, RawQuery, Fragment). -/
structure URL where
  scheme : String
  host : String
  path : String
  rawQuery : String
  fragment : String
  deriving DecidableEq, Repr

/-- Splits a character list at the first occurrence of c; the second
component is none when c does not occur. -/
def breakOn (c : Char) : List Char → List Char × Option (List Char)
  | [] => ([], none)
  | x :: xs =>
    if x = c then ([], some xs)
    else
      let r := breakOn c xs
      (x :: r.1, r.2)

/-- Scans for the "://" separator of an absolute URL, returning the scheme
characters before it and the remaining characters after it. -/
def splitSchemeAux (acc : List Char) : List Char → Option (List Char × List Char)
  | ':' :: '/' :: '/' :: rest => some (acc.reverse, rest)
  | x :: xs => splitSchemeAux (x :: acc) xs
  | [] => none

/-- Model of Go's url.Parse for the URL shapes the crawler handles
(scheme://host/path?query#fragment absolute URLs and path?query#fragment
relative references). The fragment is cut at the first hash, the query at
the first question mark; an absolute URL is recognized by a "://" separator
and its host extends to the first slash after it. -/
def parseURL (s : String) : URL :=
  let cs := s.toList
  let p1 := breakOn '#' cs
  let fragment := (p1.2.getD []).asString
  let p2 := breakOn '?' p1.1
  let rawQuery := (p2.2.getD []).asString
  match splitSchemeAux [] p2.1 with
  | some (schemeCs, rest) =>
    { scheme := schemeCs.asString,
      host := (rest.takeWhile (fun c => c ≠ '/')).asString,
      path := (rest.dropWhile (fun c => c ≠ '/')).asString,
      rawQuery := rawQuery, fragment := fragment }
  | none =>
    { scheme := "", host := "", path := p2.1.asString,
      rawQuery := rawQuery, fragment := fragment }

/-- Model of the String method of net/url URL for the shapes above:
scheme://host/path?query#fragment, with empty query and fragment omitted. -/
def URL.toString (u : URL) : String :=
  let base := if u.scheme = "" then u.path else u.scheme ++ "://" ++ u.host ++ u.path
  let withQuery := if u.rawQuery = "" then base else base ++ "?" ++ u.rawQuery
  if u.fragment = "" then withQuery else withQuery ++ "#" ++ u.fragment

/-- Model of the IsAbs method: a URL is absolute when it has a scheme. -/
def URL.isAbs (u : URL) : Bool := u.scheme != ""

/-- Model of strings.HasPrefix, over the character lists of the strings. -/
def hasPrefixStr (s p : String) : Bool := p.toList.isPrefixOf s.toList

/-- Whitespace recognizer for trimSpace. -/
def isSpaceChar (c : Char) : Bool := c = ' ' || c = '\t' || c = '\n' || c = '\r'

/-- Model of strings.TrimSpace: drops leading and trailing whitespace. -/
def trimSpace (s : String) : String :=
  (((s.toList.dropWhile isSpaceChar).reverse.dropWhile isSpaceChar).reverse).asString

/-- Model of strings.TrimRight(s, "/"): drops every trailing slash. -/
def trimRightSlash (s : String) : String :=
  ((s.toList.reverse.dropWhile (fun c => c = '/')).reverse).asString

/-- Directory part of a path: everything up to and including the last
slash, empty when the path has no slash. -/
def dirPart (p : String) : String :=
  ((p.toList.reverse.dropWhile (fun c => c ≠ '/')).reverse).asString

/-- Model of the ResolveReference method of net/url URL (RFC 3986 section
5.3), restricted to references without dot segments: an absolute reference
wins; a rooted path replaces the base path; an empty path keeps the base
path; any other relative path is merged onto the directory of the base
path. -/
def URL.resolveReference (base ref : URL) : URL :=
  if ref.isAbs then ref
  else if hasPrefixStr ref.path "/" then
    { scheme := base.scheme, host := base.host, path := ref.path,
      rawQuery := ref.rawQuery, fragment := ref.fragment }
  else if ref.path = "" then
    { scheme := base.scheme, host := base.host, path := base.path,
      rawQuery := if ref.rawQuery = "" then base.rawQuery else ref.rawQuery,
      fragment := ref.fragment }
  else
    let dir := dirPart base.path
    { scheme := base.scheme, host := base.host,
      path := (if dir = "" then "/" else dir) ++ ref.path,
      rawQuery := ref.rawQuery, fragment := ref.fragment }

/-! Link Extractor: FindLinks (crawler.go). -/

/-- One HTML token as produced by the x/net/html tokenizer: a start tag
with its attribute list, or any other token the extractor ignores. The end
of the token list models the ErrorToken that terminates the scan. -/
inductive Token where
  | startTag (tag : String) (attrs : List (String × String)) : Token
  | other : Token
  deriving DecidableEq, Repr

/-- Processing of one href attribute value inside FindLinks (crawler.go):
trim whitespace; drop empty, mailto and fragment hrefs; parse; clear the
query; keep an absolute URL only when on the same host, resolve a relative
one against the page URL; strip trailing slashes; insert into the found
list when absent. -/
def processHref (uri : URL) (found : List String) (v : String) : List String :=
  let rawUrl := trimSpace v
  if rawUrl = "" || hasPrefixStr rawUrl "mailto:" || hasPrefixStr rawUrl "#" then found
  else
    let parsedUrl := { parseURL rawUrl with rawQuery := "" }
    let fullUrl? : Option String :=
      if parsedUrl.isAbs then
        if parsedUrl.host != uri.host then none else some parsedUrl.toString
      else some (uri.resolveReference parsedUrl).toString
    match fullUrl? with
    | none => found
    | some f =>
      let fullUrl := trimRightSlash f
      if fullUrl ∈ found then found else found ++ [fullUrl]

/-- Body of the attribute loop of FindLinks: attributes whose key is not
href are skipped, href values go through processHref. -/
def processAttr (uri : URL) (acc : List String) (attr : String × String) : List String :=
  if attr.1 != "href" then acc else processHref uri acc attr.2

/-- Body of the token loop of FindLinks: only anchor start tags are
examined, and their attribute list is folded through processAttr. -/
def processToken (uri : URL) (acc : List String) : Token → List String
  | Token.startTag tag attrs =>
    if tag = "a" then attrs.foldl (processAttr uri) acc else acc
  | Token.other => acc

/-- Model of FindLinks (crawler.go): scan the token stream; for each anchor
start tag process every href attribute, collecting a duplicate-free list;
at end of stream delete the entry equal to the page URL's own string form
and return the remaining entries. -/
def findLinks (uri : URL) (tokens : List Token) : List String :=
  (tokens.foldl (processToken uri) []).erase uri.toString

/-- Modelled from the spec: section 4.1 normalization of a URL — all query
parameters stripped, then trailing slashes stripped. Used only to state the
self-link claims; the source never applies this to the base URL itself. -/
def normalizeURL (u : URL) : String :=
  trimRightSlash (URL.toString { u with rawQuery := "" })

/-- Token stream of the test page used by TestCrawler_FindLinks and
TestCrawler_Crawl (crawler_test.go): the ul start tag and the seven anchors
with their href attributes; text and end-tag tokens are Token.other. -/
def testTokens : List Token :=
  [Token.startTag "ul" [],
   Token.startTag "a" [("href", "/")], Token.other, Token.other,
   Token.startTag "a" [("href", "/advanced-features")], Token.other, Token.other,
   Token.startTag "a" [("href", "/pricing")], Token.other, Token.other,
   Token.startTag "a" [("href", "/demo?url=staging")], Token.other, Token.other,
   Token.startTag "a" [("href", "https://google.com")], Token.other, Token.other,
   Token.startTag "a" [("href", "mailto:someone@example.com")], Token.other, Token.other,
   Token.startTag "a" [("href", "#")], Token.other, Token.other]

/-! Page Store: DownloadAndSave and Fetch (crawler.go). -/

/-- Chunked byte content as delivered by successive reads of an HTTP
response body; bytes are modelled as natural numbers. -/
abbrev Content := List Nat

/-- An HTTP response as seen by DownloadAndSave once the injected
HttpClient has returned: the status code and the body chunk sequence. -/
structure Response where
  statusCode : Nat
  body : List Content
  deriving DecidableEq, Repr

/-- Failure conditions of DownloadAndSave (crawler.go): the distinguished
ErrPageNotFound for status 404 and the generic request-failed error
carrying any other non-200 status code. -/
inductive DlError where
  | pageNotFound : DlError
  | unexpectedStatus (code : Nat) : DlError
  deriving DecidableEq, Repr

/-- Model of io.Copy into io.MultiWriter(file, buffer): a single pass over
the body chunks appends every chunk both to the file contents and to the
in-memory buffer. -/
def multiWriterCopy (chunks : List Content) : Content × Content :=
  chunks.foldl (fun acc chunk => (acc.1 ++ chunk, acc.2 ++ chunk)) ([], [])

/-- Model of DownloadAndSave (crawler.go) from the point the response is
available; transport-level request errors are outside this model, and the
file system operations (os.Create, the final Seek) are modelled as
succeeding. The result pairs the buffer outcome with the cache file that
was created (none when no file was created): on 200 the body is streamed
through the MultiWriter into the file and the buffer; on 404 the
distinguished page-not-found error is returned; any other status yields
the generic status error. In both failure cases control never reaches
os.Create. -/
def downloadAndSave (resp : Response) : Except DlError Content × Option Content :=
  if resp.statusCode = 200 then
    let copied := multiWriterCopy resp.body
    (Except.ok copied.2, some copied.1)
  else if resp.statusCode = 404 then (Except.error DlError.pageNotFound, none)
  else (Except.error (DlError.unexpectedStatus resp.statusCode), none)

/-- Outcome of os.ReadFile on the cache file, as distinguished by the
switch in Fetch: success with the file contents, the not-exist error,
io.EOF, or any other read error (carrying its message). -/
inductive ReadResult where
  | ok (contents : Content) : ReadResult
  | notExist : ReadResult
  | eof : ReadResult
  | otherError (msg : String) : ReadResult
  deriving DecidableEq, Repr

/-- Failure conditions of Fetch (crawler.go): a wrapped DownloadAndSave
failure or a fatal cache read failure. -/
inductive FetchError where
  | downloadAndSave (e : DlError) : FetchError
  | readFile : FetchError
  deriving DecidableEq, Repr

/-- Model of Fetch (crawler.go): run os.ReadFile on the cache file and
dispatch on its outcome. Success uses the file contents; the not-exist
outcome downloads via DownloadAndSave (whose outcome is the download
parameter); any other read error except io.EOF aborts the fetch; an io.EOF
outcome matches no case of the switch and falls through, leaving the
initial empty buffer in place. FindLinks then runs on the resulting
buffer; the tokenization of the buffer by the x/net/html tokenizer is
abstracted by the tokensOf parameter. The URL parse step is modelled as
succeeding (parseURL is total). -/
def fetch (readResult : ReadResult) (download : Except DlError Content)
    (tokensOf : Content → List Token) (uri : URL) : Except FetchError (List String) :=
  match readResult with
  | ReadResult.ok contents => Except.ok (findLinks uri (tokensOf contents))
  | ReadResult.notExist =>
    match download with
    | Except.ok buf => Except.ok (findLinks uri (tokensOf buf))
    | Except.error e => Except.error (FetchError.downloadAndSave e)
  | ReadResult.eof => Except.ok (findLinks uri (tokensOf []))
  | ReadResult.otherError _ => Except.error FetchError.readFile

/-! Crawl Orchestrator: shouldVisit, Crawl and Start (crawler.go). -/

/-- Outcome of one Fetch call as seen by Crawl: the extracted links on
success, or a failure. -/
abbrev FetchOutcome := Except Unit (List String)

/-- Model of shouldVisit (crawler.go): under the instance lock, check
membership in the visited map and insert when absent; the Bool reports
whether this call performed the insertion, and the returned list is the
visited map afterwards. -/
def shouldVisit (visited : List String) (url : String) : Bool × List String :=
  if url ∈ visited then (false, visited)
  else (true, visited ++ [url])

mutual

/-- Model of Crawl (crawler.go) with the visited map passed as explicit
state and the per-URL fetch outcomes given by the env parameter: return
when no depth remains; admit the URL via shouldVisit, returning when it
was already visited; return when the context is already cancelled; fetch,
and on failure return (the failure only ends this branch); finally recurse
into each extracted link with depth - 1. The goroutine fan-out is
linearized: the per-branch visited-set effects are applied in link order,
which fixes one interleaving of the concurrent run. -/
def crawl (env : String → FetchOutcome) (cancelled : Bool) (url : String)
    (depth : Int) (visited : List String) : List String :=
  if depth ≤ 0 then visited
  else
    match shouldVisit visited url with
    | (false, visited') => visited'
    | (true, visited') =>
      if cancelled then visited'
      else
        match env url with
        | Except.error _ => visited'
        | Except.ok links => crawlList env cancelled links (depth - 1) visited'
termination_by (depth.toNat, 0)

/-- The fan-out loop of Crawl over the extracted links, each child crawled
with depth - 1. -/
def crawlList (env : String → FetchOutcome) (cancelled : Bool)
    (links : List String) (depth : Int) (visited : List String) : List String :=
  match links with
  | [] => visited
  | l :: rest => crawlList env cancelled rest depth (crawl env cancelled l depth visited)
termination_by (depth.toNat, links.length + 1)

end

mutual

/-- Fuel-indexed variant of crawl: the recursion budget is an explicit
fuel consumed at each recursive descent, and none signals fuel exhaustion.
Used to state termination of the traversal with an explicit bound. -/
def crawlF (env : String → FetchOutcome) (cancelled : Bool) (url : String)
    (depth : Int) (visited : List String) (fuel : Nat) : Option (List String) :=
  if depth ≤ 0 then some visited
  else
    match shouldVisit visited url with
    | (false, visited') => some visited'
    | (true, visited') =>
      if cancelled then some visited'
      else
        match env url with
        | Except.error _ => some visited'
        | Except.ok links =>
          match fuel with
          | 0 => none
          | f + 1 => crawlListF env cancelled links (depth - 1) visited' f
termination_by (fuel, 0)

/-- Fuel-indexed variant of the fan-out loop of Crawl. -/
def crawlListF (env : String → FetchOutcome) (cancelled : Bool)
    (links : List String) (depth : Int) (visited : List String) (fuel : Nat) :
    Option (List String) :=
  match links with
  | [] => some visited
  | l :: rest =>
    match crawlF env cancelled l depth visited fuel with
    | none => none
    | some visited' => crawlListF env cancelled rest depth visited' fuel
termination_by (fuel, links.length + 1)

end

/-- Model of Start (crawler.go): the root task crawls the start URL at the
given depth over the fresh empty visited map; after the WaitGroup join the
visited pages are returned. The cancelled flag models whether the context
passed to Start is already cancelled. -/
def start (env : String → FetchOutcome) (cancelled : Bool) (rawURL : String)
    (depth : Int) : List String :=
  crawl env cancelled rawURL depth []

/-- Link environment of the full-run test (TestCrawler_Crawl,
crawler_test.go): fetching the root page http://localhost.com succeeds and
extracts the links of the test document; the fetch of every other URL
fails, the three child pages being unmocked and unreachable. -/
def testEnv : String → FetchOutcome := fun url =>
  if url = "http://localhost.com" then
    Except.ok (findLinks (parseURL "http://localhost.com") testTokens)
  else Except.error ()

/-! Concurrency model of the goroutine fan-out of Crawl (crawler.go): each
Crawl invocation creates its own semaphore channel of capacity
maxConcurrent; the loop over the extracted links sends into that semaphore
before spawning each child goroutine with wg.Go, and the child receives
from it (releasing the slot) when its own Crawl call has returned. Start
spawns the root task with wg.Go without any gate. The model is an event
semantics over spawn and finish events of branches. -/

/-- A branch (one goroutine running Crawl) is identified by the path of
link indices from the root task, most recent index first: the root task is
the empty path, and i :: q is the branch spawned for the i-th extracted
link of branch q. -/
abbrev Path := List Nat

/-- A scheduling event of one crawl run: a branch is spawned (its parent
acquired a slot of the parent's own semaphore and called wg.Go), or a
branch completes (its Crawl call returned, upon which it releases the slot
of its parent's semaphore). -/
inductive Event where
  | spawn (p : Path) : Event
  | finish (p : Path) : Event
  deriving DecidableEq, Repr

/-- Scheduler state of a run: the branches spawned so far and the branches
finished so far. -/
structure SchedState where
  spawned : List Path
  finished : List Path
  deriving DecidableEq, Repr

/-- Initial scheduler state: no branch spawned or finished. -/
def initState : SchedState := ⟨[], []⟩

/-- The URL a branch crawls, resolved through the link graph: the links
parameter gives the ordered link list that each page's fetch extracts. -/
def urlAt (links : String → List String) (root : String) : Path → Option String
  | [] => some root
  | i :: q =>
    match urlAt links root q with
    | some u => (links u)[i]?
    | none => none

/-- Number of extracted links of the page a branch crawls (0 for an
unresolvable path). -/
def childCount (links : String → List String) (root : String) (p : Path) : Nat :=
  match urlAt links root p with
  | some u => (links u).length
  | none => 0

/-- Whether branch p is an in-flight direct child of branch q: spawned as
i :: q for some i and not yet finished. Each such branch holds one slot of
q's semaphore, from the send before its wg.Go to the receive after its
Crawl call returns. -/
def inFlightChildPred (fin : List Path) (q : Path) (p : Path) : Bool :=
  decide (p.tail = q ∧ p ≠ [] ∧ p ∉ fin)

/-- Number of in-flight direct children of branch q, that is, of held
slots of q's semaphore. -/
def childrenInFlight (s : SchedState) (q : Path) : Nat :=
  s.spawned.countP (inFlightChildPred s.finished q)

/-- Total number of in-flight child branches across the whole run: spawned
through the fan-out gate (non-root) and not yet finished. -/
def totalChildrenInFlight (s : SchedState) : Nat :=
  s.spawned.countP (fun p => decide (p ≠ [] ∧ p ∉ s.finished))

/-- Whether an event is legal in a state for semaphore capacity m over the
given link graph, mirroring Crawl and Start: the root branch is spawned at
most once by Start, without any gate; a child branch i :: q is spawned by
the running parent q's loop, in link order, for an existing link index,
after acquiring a slot of the parent's own semaphore — which requires
fewer than m direct children of q in flight; a branch finishes only once
and only after its own Crawl call returned, which requires its fan-out
loop to have spawned all its children, or none when Crawl returned at the
depth, visited, cancellation or fetch-failure guard before the loop. -/
def eventOk (links : String → List String) (root : String) (m : Nat)
    (s : SchedState) : Event → Bool
  | Event.spawn [] => decide ([] ∉ s.spawned)
  | Event.spawn (i :: q) =>
    decide ((i :: q) ∉ s.spawned) &&
    decide (q ∈ s.spawned) &&
    decide (q ∉ s.finished) &&
    decide (∀ j, j < i → (j :: q) ∈ s.spawned) &&
    decide (childrenInFlight s q < m) &&
    decide (i < childCount links root q)
  | Event.finish p =>
    decide (p ∈ s.spawned) &&
    decide (p ∉ s.finished) &&
    (decide (∀ j, j < childCount links root p → (j :: p) ∈ s.spawned) ||
     decide (∀ j, j < childCount links root p → (j :: p) ∉ s.spawned))

/-- Effect of an event on the scheduler state. -/
def applyEvent (s : SchedState) : Event → SchedState
  | Event.spawn p => ⟨p :: s.spawned, s.finished⟩
  | Event.finish p => ⟨s.spawned, p :: s.finished⟩

/-- Whether an event sequence is a legal schedule from a state. -/
def validFrom (links : String → List String) (root : String) (m : Nat)
    (s : SchedState) : List Event → Bool
  | [] => true
  | e :: rest => eventOk links root m s e && validFrom links root m (applyEvent s e) rest

/-- State reached after executing an event sequence. -/
def runEvents (s : SchedState) : List Event → SchedState
  | [] => s
  | e :: rest => runEvents (applyEvent s e) rest

/-- Link graph of the C9 counterexample: the root page r links to pages a
and b, and page a links to page x. -/
def cLinks : String → List String := fun u =>
  if u = "r" then ["a", "b"]
  else if u = "a" then ["x"]
  else []

/-- Schedule of the C9 counterexample, legal for maximum concurrency 1:
spawn the root; the root acquires its slot and spawns branch a; branch a
acquires a slot of its own fresh semaphore and spawns branch x; branch a
returns, releasing the root's slot; the root acquires its slot again and
spawns branch b. Branches x and b are now in flight together. -/
def cEvents : List Event :=
  [Event.spawn [], Event.spawn [0], Event.spawn [0, 0],
   Event.finish [0], Event.spawn [1]]

/-- The scheduling invariant: every finished branch was spawned, and every
branch has at most m direct children in flight. -/
def SchedInv (m : Nat) (s : SchedState) : Prop :=
  (∀ p ∈ s.finished, p ∈ s.spawned) ∧ ∀ q, childrenInFlight s q ≤ m

end WebCrawler

namespace WebCrawler

/-! Theorems. -/

theorem processHref_nodup (uri : URL) (found : List String) (v : String)
    (h : found.Nodup) : (processHref uri found v).Nodup := by
  unfold processHref
  dsimp only
  split
  · exact h
  · split
    · exact h
    · split
      · exact h
      · simp only [List.nodup_append, List.nodup_cons, List.not_mem_nil,
          not_false_eq_true, List.nodup_nil, and_self, List.Disjoint, List.mem_singleton,
          true_and]
        refine ⟨h, ?_⟩
        intro x hx hxe
        subst hxe
        simp_all

theorem processAttr_nodup (uri : URL) (acc : List String) (attr : String × String)
    (h : acc.Nodup) : (processAttr uri acc attr).Nodup := by
  unfold processAttr
  split
  · exact h
  · exact processHref_nodup uri acc attr.2 h

theorem attrsFoldl_nodup (uri : URL) (attrs : List (String × String))
    (acc : List String) (h : acc.Nodup) :
    (attrs.foldl (processAttr uri) acc).Nodup := by
  induction attrs generalizing acc with
  | nil => exact h
  | cons a rest ih =>
    simpa using ih (processAttr uri acc a) (processAttr_nodup uri acc a h)

theorem processToken_nodup (uri : URL) (acc : List String) (t : Token)
    (h : acc.Nodup) : (processToken uri acc t).Nodup := by
  cases t with
  | startTag tag attrs =>
    simp only [processToken]
    split
    · exact attrsFoldl_nodup uri attrs acc h
    · exact h
  | other =>
    simp only [processToken]
    exact h

theorem tokensFoldl_nodup (uri : URL) (tokens : List Token) (acc : List String)
    (h : acc.Nodup) : (tokens.foldl (processToken uri) acc).Nodup := by
  induction tokens generalizing acc with
  | nil => exact h
  | cons t rest ih =>
    simpa using ih (processToken uri acc t) (processToken_nodup uri acc t h)

/-- C1 counterexample: with base URL string "http://localhost.com/" (with a
trailing slash) and a single anchor with href "/", the extracted list
contains the page's own normalized URL "http://localhost.com": the
self-link removal deletes only the base URL's exact string form
"http://localhost.com/", so the slash-stripped entry survives. -/
theorem findLinks_self_link_leak :
    normalizeURL (parseURL "http://localhost.com/") ∈
      findLinks (parseURL "http://localhost.com/")
        [Token.startTag "a" [("href", "/")]] := by decide

/-- C1 amended: FindLinks removes the entry equal to the base URL's own
string form, so whenever the base URL's string form coincides with its
normalized form (in particular when it carries no trailing slash), the
returned link list never contains the page's own normalized URL. -/
theorem findLinks_no_self_link (uri : URL) (tokens : List Token)
    (h : URL.toString uri = normalizeURL uri) :
    normalizeURL uri ∉ findLinks uri tokens := by
  unfold findLinks
  intro hmem
  have hnd : (tokens.foldl (processToken uri) []).Nodup :=
    tokensFoldl_nodup uri tokens [] List.nodup_nil
  rw [hnd.mem_erase_iff] at hmem
  exact hmem.1 (by rw [h])

/-- Witness for the amended C1 theorem at the base URL
"http://localhost.com" and a page linking to "/". -/
theorem findLinks_no_self_link_witness :
    URL.toString (parseURL "http://localhost.com") =
        normalizeURL (parseURL "http://localhost.com") ∧
      normalizeURL (parseURL "http://localhost.com") ∉
        findLinks (parseURL "http://localhost.com")
          [Token.startTag "a" [("href", "/")]] :=
  ⟨by decide, findLinks_no_self_link _ _ (by decide)⟩

/-- C3: for base URL http://localhost.com and the test document containing
exactly the anchors with hrefs "/", "/advanced-features", "/pricing",
"/demo?url=staging", "https://google.com", "mailto:someone@example.com" and
"#", FindLinks returns exactly the three links
http://localhost.com/advanced-features, http://localhost.com/pricing and
http://localhost.com/demo: the query is stripped, and the self, cross-host,
mailto and fragment hrefs are excluded. -/
theorem findLinks_test_page :
    findLinks (parseURL "http://localhost.com") testTokens =
      ["http://localhost.com/advanced-features", "http://localhost.com/pricing",
        "http://localhost.com/demo"] ∧
      (findLinks (parseURL "http://localhost.com") testTokens).length = 3 := by
  decide

/-- C2 counterexample: when the cache read fails with io.EOF (an error
other than the not-exist error), Fetch does not return an error: the
switch falls through every case and link extraction proceeds on the empty
buffer. The download outcome is irrelevant; here it is an error as well,
showing no download takes place. -/
theorem fetch_eof_no_error :
    fetch ReadResult.eof (Except.error DlError.pageNotFound) (fun _ => [])
      (parseURL "http://localhost.com") = Except.ok [] := by rfl

/-- C2 amended: a cache read failure other than the not-exist error and
other than io.EOF makes Fetch return an error without proceeding to a
download, while an io.EOF read failure proceeds without error, extracting
links from the empty buffer. -/
theorem fetch_read_error (msg : String) (download : Except DlError Content)
    (tokensOf : Content → List Token) (uri : URL) :
    fetch (ReadResult.otherError msg) download tokensOf uri =
        Except.error FetchError.readFile ∧
      fetch ReadResult.eof download tokensOf uri =
        Except.ok (findLinks uri (tokensOf [])) := by
  constructor <;> rfl

theorem multiWriterCopy_foldl (chunks : List Content) (a b : Content) :
    chunks.foldl (fun acc chunk => (acc.1 ++ chunk, acc.2 ++ chunk)) (a, b) =
      (a ++ chunks.flatten, b ++ chunks.flatten) := by
  induction chunks generalizing a b with
  | nil => simp
  | cons c rest ih => simp [ih, List.append_assoc]

/-- The MultiWriter copy writes the same bytes, the concatenated body, to
both sinks. -/
theorem multiWriterCopy_eq (chunks : List Content) :
    multiWriterCopy chunks = (chunks.flatten, chunks.flatten) := by
  unfold multiWriterCopy
  simpa using multiWriterCopy_foldl chunks [] []

/-- C6: for every response with status 200, DownloadAndSave creates the
cache file and returns a buffer such that the file contents and the
returned buffer are byte-identical, both equal to the concatenated
response body; a later cache read hence returns exactly the bytes the
download returned. -/
theorem downloadAndSave_roundtrip (resp : Response) (h : resp.statusCode = 200) :
    downloadAndSave resp =
      (Except.ok resp.body.flatten, some resp.body.flatten) := by
  unfold downloadAndSave
  rw [if_pos h, multiWriterCopy_eq]

/-- Witness for C6 at a 200 response whose body arrives in two chunks. -/
theorem downloadAndSave_roundtrip_witness :
    downloadAndSave { statusCode := 200, body := [[104, 105], [33]] } =
      (Except.ok [104, 105, 33], some [104, 105, 33]) := by
  have h := downloadAndSave_roundtrip { statusCode := 200, body := [[104, 105], [33]] } rfl
  simpa using h

/-- C7: for every response with a status other than 200, DownloadAndSave
returns an error and creates no cache file: status 404 yields the
distinguished page-not-found error and any other status yields the generic
error carrying that status code. -/
theorem downloadAndSave_non200 (resp : Response) (h : resp.statusCode ≠ 200) :
    downloadAndSave resp =
      (Except.error
        (if resp.statusCode = 404 then DlError.pageNotFound
          else DlError.unexpectedStatus resp.statusCode), none) := by
  unfold downloadAndSave
  rw [if_neg h]
  split <;> simp_all

/-- Witness for C7 at a 404 response and at a 500 response. -/
theorem downloadAndSave_non200_witness :
    downloadAndSave { statusCode := 404, body := [[1, 2]] } =
        (Except.error DlError.pageNotFound, none) ∧
      downloadAndSave { statusCode := 500, body := [] } =
        (Except.error (DlError.unexpectedStatus 500), none) := by
  constructor
  · have h := downloadAndSave_non200 { statusCode := 404, body := [[1, 2]] } (by decide)
    simpa using h
  · have h := downloadAndSave_non200 { statusCode := 500, body := [] } (by decide)
    simpa using h

/-- C5: idempotent admission — for every URL not yet in the visited set,
the first shouldVisit call returns true and inserts the URL, and a second
call with the same URL returns false and leaves the visited set unchanged,
so true is returned exactly once. -/
theorem shouldVisit_idempotent (visited : List String) (url : String)
    (h : url ∉ visited) :
    (shouldVisit visited url).1 = true ∧
      (shouldVisit visited url).2 = visited ++ [url] ∧
      (shouldVisit (shouldVisit visited url).2 url).1 = false ∧
      (shouldVisit (shouldVisit visited url).2 url).2 = (shouldVisit visited url).2 := by
  simp [shouldVisit, h]

/-- Witness for C5 at the URL "http://localhost.com" over the empty
visited set. -/
theorem shouldVisit_idempotent_witness :
    (shouldVisit [] "http://localhost.com").1 = true ∧
      (shouldVisit [] "http://localhost.com").2 = [] ++ ["http://localhost.com"] ∧
      (shouldVisit (shouldVisit [] "http://localhost.com").2 "http://localhost.com").1 =
        false ∧
      (shouldVisit (shouldVisit [] "http://localhost.com").2 "http://localhost.com").2 =
        (shouldVisit [] "http://localhost.com").2 :=
  shouldVisit_idempotent [] "http://localhost.com" (by decide)

/-- C4: starting the crawl of the test page from http://localhost.com at
any depth at least 2, where the fetches of the three extracted child pages
fail, Start returns exactly the 4 URLs admitted by the tracker — the root
plus the three extracted children — even though the children's own fetches
failed and contributed no further links. -/
theorem start_test_visits_four (depth : Int) (h : 2 ≤ depth) :
    start testEnv false "http://localhost.com" depth =
      ["http://localhost.com", "http://localhost.com/advanced-features",
        "http://localhost.com/pricing", "http://localhost.com/demo"] := by
  have h0 : ¬(depth ≤ 0) := by omega
  have h1 : ¬(depth - 1 ≤ 0) := by omega
  have hlinks : findLinks (parseURL "http://localhost.com") testTokens =
      ["http://localhost.com/advanced-features", "http://localhost.com/pricing",
        "http://localhost.com/demo"] := by decide
  unfold start
  simp +decide [crawl.eq_def, crawlList.eq_def, shouldVisit, testEnv, hlinks, h0, h1]

/-- Witness for C4 at depth 10, the depth used by TestCrawler_Crawl. -/
theorem start_test_visits_four_witness :
    (2 : Int) ≤ 10 ∧
      start testEnv false "http://localhost.com" 10 =
        ["http://localhost.com", "http://localhost.com/advanced-features",
          "http://localhost.com/pricing", "http://localhost.com/demo"] :=
  ⟨by decide, start_test_visits_four 10 (by decide)⟩

theorem crawlListF_eq_crawlList (env : String → FetchOutcome) (cancelled : Bool)
    (fuel : Nat)
    (hc : ∀ url depth visited, depth.toNat ≤ fuel →
      crawlF env cancelled url depth visited fuel =
        some (crawl env cancelled url depth visited)) :
    ∀ links depth visited, depth.toNat ≤ fuel →
      crawlListF env cancelled links depth visited fuel =
        some (crawlList env cancelled links depth visited) := by
  intro links
  induction links with
  | nil =>
    intro depth visited h
    rw [crawlListF.eq_def, crawlList.eq_def]
  | cons l rest ih =>
    intro depth visited h
    rw [crawlListF.eq_def, crawlList.eq_def]
    dsimp only
    rw [hc l depth visited h]
    exact ih depth _ h

/-- A fuel budget of depth.toNat always suffices: crawlF never exhausts its
fuel when given the depth as fuel, since the depth strictly decreases at
each recursive descent. -/
theorem crawlF_eq_crawl (env : String → FetchOutcome) (cancelled : Bool) :
    ∀ fuel url depth visited, depth.toNat ≤ fuel →
      crawlF env cancelled url depth visited fuel =
        some (crawl env cancelled url depth visited) := by
  intro fuel
  induction fuel with
  | zero =>
    intro url depth visited h
    have hd : depth ≤ 0 := by omega
    rw [crawlF.eq_def, crawl.eq_def, if_pos hd, if_pos hd]
  | succ f ih =>
    intro url depth visited h
    by_cases hd : depth ≤ 0
    · rw [crawlF.eq_def, crawl.eq_def, if_pos hd, if_pos hd]
    · rw [crawlF.eq_def, crawl.eq_def, if_neg hd, if_neg hd]
      cases hsv : shouldVisit visited url with
      | mk b visited' =>
        cases b
        · rfl
        · cases cancelled
          · cases he : env url with
            | error e => rfl
            | ok links =>
              have hle : (depth - 1).toNat ≤ f := by omega
              exact crawlListF_eq_crawlList env false f
                (fun u d v hv => ih u d v hv) links (depth - 1) visited' hle
          · rfl

/-- C8: the recursive Crawl traversal terminates for every start URL,
depth and link graph, including cyclic ones: recursive calls descend with
depth decreased by one, so the fuel-indexed variant of the traversal,
whose recursion is bounded by an explicit budget consumed at each descent,
completes within a budget of depth.toNat descents and computes the total
traversal; moreover a branch with depth at most 0 does no work, and a
branch whose URL the visited set already holds does no work. -/
theorem crawl_terminates (env : String → FetchOutcome) (cancelled : Bool)
    (url : String) (depth : Int) (visited : List String) :
    crawlF env cancelled url depth visited depth.toNat =
        some (crawl env cancelled url depth visited) ∧
      (depth ≤ 0 → crawl env cancelled url depth visited = visited) ∧
      (url ∈ visited → crawl env cancelled url depth visited = visited) := by
  refine ⟨crawlF_eq_crawl env cancelled depth.toNat url depth visited (Nat.le_refl _),
    ?_, ?_⟩
  · intro h
    rw [crawl.eq_def, if_pos h]
  · intro h
    by_cases hd : depth ≤ 0
    · rw [crawl.eq_def, if_pos hd]
    · rw [crawl.eq_def, if_neg hd]
      have : shouldVisit visited url = (false, visited) := by simp [shouldVisit, h]
      rw [this]

/-- Witness for C8 on a two-page cyclic link graph, at depth 0 with the
URL already visited, so both guard hypotheses are discharged. -/
theorem crawl_terminates_witness :
    (crawlF (fun u => if u = "p" then Except.ok ["q", "p"] else Except.ok ["p"])
          false "p" 0 ["p"] (Int.toNat 0) =
        some (crawl (fun u => if u = "p" then Except.ok ["q", "p"] else Except.ok ["p"])
          false "p" 0 ["p"])) ∧
      crawl (fun u => if u = "p" then Except.ok ["q", "p"] else Except.ok ["p"])
          false "p" 0 ["p"] = ["p"] ∧
      crawl (fun u => if u = "p" then Except.ok ["q", "p"] else Except.ok ["p"])
          false "p" 0 ["p"] = ["p"] := by
  have h := crawl_terminates
    (fun u => if u = "p" then Except.ok ["q", "p"] else Except.ok ["p"]) false "p" 0 ["p"]
  exact ⟨h.1, h.2.1 (by decide), h.2.2 (by decide)⟩

theorem inFlightChildPred_nil (fin : List Path) (q : Path) :
    inFlightChildPred fin q [] = false := by simp [inFlightChildPred]

theorem inFlightChildPred_self (fin : List Path) (i : Nat) (q : Path)
    (h : (i :: q) ∉ fin) : inFlightChildPred fin q (i :: q) = true := by
  simp [inFlightChildPred, h]

theorem inFlightChildPred_ne (fin : List Path) (i : Nat) (q q' : Path)
    (h : q ≠ q') : inFlightChildPred fin q' (i :: q) = false := by
  simp [inFlightChildPred, h]

theorem inFlightChildPred_mono (fin : List Path) (x q p : Path)
    (h : inFlightChildPred (x :: fin) q p = true) :
    inFlightChildPred fin q p = true := by
  simp only [inFlightChildPred, decide_eq_true_eq] at h ⊢
  exact ⟨h.1, h.2.1, fun hc => h.2.2 (List.mem_cons_of_mem _ hc)⟩

theorem schedInv_init (m : Nat) : SchedInv m initState := by
  constructor
  · intro p hp
    simp [initState] at hp
  · intro q
    simp [childrenInFlight, initState]

/-- One legal event preserves the scheduling invariant: spawning a child
consumes a free slot of its parent's semaphore, everything else keeps or
lowers the per-parent in-flight counts. -/
theorem schedInv_step (links : String → List String) (root : String) (m : Nat)
    (s : SchedState) (e : Event) (hinv : SchedInv m s)
    (he : eventOk links root m s e = true) : SchedInv m (applyEvent s e) := by
  obtain ⟨hfs, hbound⟩ := hinv
  cases e with
  | spawn p =>
    cases p with
    | nil =>
      constructor
      · intro x hx
        exact List.mem_cons_of_mem _ (hfs x hx)
      · intro q
        simp only [applyEvent, childrenInFlight, List.countP_cons,
          inFlightChildPred_nil, Bool.false_eq_true, if_false]
        simpa [childrenInFlight] using hbound q
    | cons i q =>
      simp only [eventOk, Bool.and_eq_true, decide_eq_true_eq] at he
      obtain ⟨⟨⟨⟨⟨hns, hqs⟩, hqnf⟩, hord⟩, hcnt⟩, hic⟩ := he
      constructor
      · intro x hx
        exact List.mem_cons_of_mem _ (hfs x hx)
      · intro q'
        simp only [applyEvent, childrenInFlight, List.countP_cons]
        by_cases hq : q = q'
        · subst hq
          have hnotfin : (i :: q) ∉ s.finished := fun hc => hns (hfs _ hc)
          rw [inFlightChildPred_self s.finished i q hnotfin, if_pos rfl]
          have hb := hcnt
          simp only [childrenInFlight] at hb
          omega
        · rw [inFlightChildPred_ne s.finished i q q' hq, if_neg Bool.false_ne_true]
          simpa [childrenInFlight] using hbound q'
  | finish p =>
    simp only [eventOk, Bool.and_eq_true, decide_eq_true_eq] at he
    constructor
    · intro x hx
      simp only [applyEvent] at hx ⊢
      rcases List.mem_cons.mp hx with h1 | h2
      · subst h1
        exact he.1.1
      · exact hfs x h2
    · intro q
      simp only [applyEvent, childrenInFlight]
      calc s.spawned.countP (inFlightChildPred (p :: s.finished) q) ≤
          s.spawned.countP (inFlightChildPred s.finished q) :=
            List.countP_mono_left (fun x _ hx => inFlightChildPred_mono s.finished p q x hx)
        _ ≤ m := hbound q

theorem schedInv_run (links : String → List String) (root : String) (m : Nat) :
    ∀ (events : List Event) (s : SchedState), SchedInv m s →
      validFrom links root m s events = true → SchedInv m (runEvents s events) := by
  intro events
  induction events with
  | nil =>
    intro s hs _
    exact hs
  | cons e rest ih =>
    intro s hs hv
    simp only [validFrom, Bool.and_eq_true] at hv
    exact ih (applyEvent s e) (schedInv_step links root m s e hs hv.1) hv.2

/-- C9 counterexample: with maximum concurrency 1, a schedule that the
per-invocation semaphores permit reaches a moment with 2 in-flight child
branches, exceeding the configured maximum. Each Crawl invocation makes
its own semaphore channel, so the slots held under different parents do
not exclude each other and the bound is not global. -/
theorem concurrency_bound_violated :
    validFrom cLinks "r" 1 initState cEvents = true ∧
      totalChildrenInFlight (runEvents initState cEvents) = 2 ∧ 1 < 2 := by decide

/-- C9 amended: the semaphore bound is per Crawl invocation — in every
schedule the semaphore discipline permits, at every moment, every branch
has at most maxConcurrent direct children in flight, because a slot of the
parent's own semaphore is acquired before each child branch is spawned and
released when that branch completes, regardless of outcome. The total
number of in-flight branches across the run is not bounded by
maxConcurrent. -/
theorem childrenInFlight_bounded (links : String → List String) (root : String)
    (m : Nat) (events : List Event)
    (h : validFrom links root m initState events = true) (q : Path) :
    childrenInFlight (runEvents initState events) q ≤ m :=
  (schedInv_run links root m events initState (schedInv_init m) h).2 q

/-- Witness for the amended C9 theorem on the counterexample schedule: the
root branch of that run never exceeds its per-parent bound of 1. -/
theorem childrenInFlight_bounded_witness :
    validFrom cLinks "r" 1 initState cEvents = true ∧
      childrenInFlight (runEvents initState cEvents) [] ≤ 1 :=
  ⟨by decide, childrenInFlight_bounded cLinks "r" 1 cEvents (by decide) []⟩

end WebCrawler
